import Mathlib

/-!
Verification development for the streaming code generator
(`src/streaming_code_generator.py`).

The embedding below models, from the source:

* `StreamStatus`, `StreamStats` — the status enum and mutable progress
  record.
* `format_chunk` — defensive extraction of the text payload of one raw
  chunk.  A `RawChunk` abstracts the duck-typed chunk shapes the code
  probes (`chunk.choices[0].delta.content`); the Python exceptions thrown
  by the structural accesses are made explicit with `Except`.
* `handle_stream` — the consumption loop.  The stream is modelled as a
  finite list of `StreamEvent`s: a delivered chunk, an observed
  task-cancellation (the `asyncio.current_task().cancelled()` check at
  the top of the loop body), or a non-cancellation exception raised while
  advancing/processing the sequence.  Callback invocations are recorded
  as traces (`chunkCalls`, `progressTrace`), and every mutation of the
  shared stats record is snapshotted into `statsTrace`.
* `generate_code_with_explanation` — the retry loop.  The external
  collaborator is abstracted as a function from the attempt index to an
  `AttemptBehavior` (the `create` call raises, or returns a stream of
  events).  The `for attempt in range(max_retries)` loop is modelled by
  recursion on the number of remaining iterations, with
  `attempt = max_retries - remaining`; the source's last-iteration test
  `attempt == max_retries - 1` is exactly `remaining = 1`.
  In Python ≥ 3.8 `asyncio.CancelledError` derives from `BaseException`,
  not `Exception`, so the controller's `except Exception` does not catch
  it: cancellation propagates out of the call, which the model reflects.
  Wall-clock quantities (`start_time` is kept as an abstract `Nat`;
  `completion_time` is real time) are outside the model.
-/

namespace StreamCodeGen

/-- The `StreamStatus` enum of the source. -/
inductive StreamStatus where
  | INITIALIZING
  | PROCESSING
  | COMPLETED
  | ERROR
deriving DecidableEq, Repr

/-- The `StreamStats` dataclass: `start_time`, `chunks_processed = 0`,
`total_tokens = 0`, `status = INITIALIZING` are the construction
defaults. -/
structure StreamStats where
  start_time : Nat
  chunks_processed : Nat
  total_tokens : Nat
  status : StreamStatus
deriving DecidableEq, Repr

/-- `StreamStats(start_time=time.time())`: a freshly constructed stats
record (the clock value is abstract). -/
def freshStats (t : Nat) : StreamStats :=
  { start_time := t, chunks_processed := 0, total_tokens := 0,
    status := .INITIALIZING }

/-- One raw chunk, classified by which step of the probed access path
`chunk.choices[0].delta.content` exists.  `content c` means the path
exists and `hasattr(..., 'content')` is true, with `c = none` modelling a
`None` content. -/
inductive RawChunk where
  | noChoices
  | emptyChoices
  | noDelta
  | noContentAttr
  | content (c : Option String)
deriving DecidableEq, Repr

/-- The body of `format_chunk`'s `try` block.  A `.error` value is the
Python exception raised by the structural access; `.ok` is the value the
`try` block returns (for `noContentAttr` the `hasattr` test is false, no
exception is raised, and control falls through to `return ""`).
`c.getD ""` is `chunk.choices[0].delta.content or ""`. -/
def formatAttempt : RawChunk → Except String String
  | .noChoices => .error "AttributeError: choices"
  | .emptyChoices => .error "IndexError: list index out of range"
  | .noDelta => .error "AttributeError: delta"
  | .noContentAttr => .ok ""
  | .content c => .ok (c.getD "")

/-- `format_chunk`: the `except Exception` clause converts any exception
from the `try` body into the empty-string result (after logging a
warning). -/
def format_chunk (ch : RawChunk) : String :=
  match formatAttempt ch with
  | .ok s => s
  | .error _ => ""

/-- `format_chunk` viewed at the exception level: the function as a
whole, catch clause included, as a fallible Python call.  Its result is
`.error` exactly when an exception escapes `format_chunk`. -/
def format_chunkE (ch : RawChunk) : Except String String :=
  match formatAttempt ch with
  | .ok s => .ok s
  | .error _ => .ok ""

/-- A chunk that lacks the expected first-choice/delta/content path, or
whose content is `None` or the empty string. -/
def lacksUsableContent : RawChunk → Bool
  | .content (some s) => decide (s = "")
  | _ => true

/-- Helper for `len(s.split())`: counts the maximal non-whitespace runs
of a character list (`inWord` records whether the previous character was
part of a word). -/
def countWords : Bool → List Char → Nat
  | _, [] => 0
  | inWord, ch :: rest =>
      if ch.isWhitespace then countWords false rest
      else (if inWord then 0 else 1) + countWords true rest

/-- `len(s.split())`: Python's whitespace split drops empty pieces, so
the word count is the number of maximal non-whitespace runs of the
string. -/
def pyWordCount (s : String) : Nat :=
  countWords false s.data

/-- Left-to-right concatenation of string fragments (the running
`full_response` accumulator). -/
def concatAll : List String → String
  | [] => ""
  | s :: l => s ++ concatAll l

/-- One observable event of the chunk sequence, in stream order:
a delivered raw chunk; the per-iteration cancellation check observing a
cancelled task; or a non-cancellation exception (with message) raised
while advancing or processing the sequence. -/
inductive StreamEvent where
  | chunk (c : RawChunk)
  | cancel
  | raiseExn (msg : String)
deriving DecidableEq, Repr

/-- How one call to `handle_stream` terminates: normal return with the
accumulated text, a raised `StreamProcessError` (with message), or a
re-raised `asyncio.CancelledError`. -/
inductive ConsumeOutcome where
  | ok (text : String)
  | streamProcessError (msg : String)
  | cancelled
deriving DecidableEq, Repr

/-- Result of one `handle_stream` call: its outcome, the final value of
the shared stats record, the fragments passed to `callback` in order,
the stats snapshots passed to `progress_callback` in order, and the
snapshots of the stats record after each of its mutations. -/
structure ConsumeResult where
  outcome : ConsumeOutcome
  stats : StreamStats
  chunkCalls : List String
  progressTrace : List StreamStats
  statsTrace : List StreamStats
deriving DecidableEq, Repr

/-- The `for chunk in stream` loop of `handle_stream`.  Per event:
a `cancel` event raises `CancelledError`, re-raised by the dedicated
handler; a `raiseExn` event is caught by `except Exception` and
re-raised as `StreamProcessError("Error processing stream: " + msg)`;
a `chunk` event is formatted, and if the fragment is non-empty the
counters are bumped, the fragment is appended to the accumulator and
handed to `callback`; `progress_callback` (when supplied, `hasProgress`)
then observes the current stats either way.  After the list is
exhausted the status is set to `COMPLETED`, a final progress call is
made, and the accumulated text is returned. -/
def consumeLoop (hasProgress : Bool) : StreamStats → List StreamEvent → ConsumeResult
  | stats, [] =>
      let stats1 : StreamStats := { stats with status := .COMPLETED }
      { outcome := .ok "", stats := stats1, chunkCalls := [],
        progressTrace := if hasProgress then [stats1] else [],
        statsTrace := [stats1] }
  | stats, .cancel :: _ =>
      { outcome := .cancelled, stats := stats, chunkCalls := [],
        progressTrace := [], statsTrace := [] }
  | stats, .raiseExn m :: _ =>
      { outcome := .streamProcessError ("Error processing stream: " ++ m),
        stats := stats, chunkCalls := [], progressTrace := [], statsTrace := [] }
  | stats, .chunk c :: rest =>
      let f := format_chunk c
      if f = "" then
        let r := consumeLoop hasProgress stats rest
        { r with progressTrace := (if hasProgress then [stats] else []) ++ r.progressTrace }
      else
        let stats1 : StreamStats :=
          { stats with chunks_processed := stats.chunks_processed + 1,
                       total_tokens := stats.total_tokens + pyWordCount f }
        let r := consumeLoop hasProgress stats1 rest
        { outcome := match r.outcome with
                     | .ok t => .ok (f ++ t)
                     | o => o,
          stats := r.stats,
          chunkCalls := f :: r.chunkCalls,
          progressTrace := (if hasProgress then [stats1] else []) ++ r.progressTrace,
          statsTrace := stats1 :: r.statsTrace }

/-- `handle_stream(stream, callback, progress_callback)` on the stats
record it finds in `self.stats`. -/
def handle_stream (hasProgress : Bool) (stats : StreamStats)
    (events : List StreamEvent) : ConsumeResult :=
  consumeLoop hasProgress stats events

/-- What the external collaborator does on one attempt: the
`client.chat.completions.create(...)` call raises (with message `msg`),
or it returns a stream delivering the given event sequence. -/
inductive AttemptBehavior where
  | openFail (msg : String)
  | stream (events : List StreamEvent)
deriving DecidableEq, Repr

/-- The first non-chunk event of an event sequence, if any: the event
that interrupts the consumption loop. -/
inductive SpecialEv where
  | raiseE (m : String)
  | cancelE
deriving DecidableEq, Repr

def firstSpecial : List StreamEvent → Option SpecialEv
  | [] => none
  | .chunk _ :: rest => firstSpecial rest
  | .cancel :: _ => some .cancelE
  | .raiseExn m :: _ => some (.raiseE m)

/-- The message of the exception that reaches the controller's
`except Exception` handler on an attempt with this behavior, or `none`
when the attempt succeeds or is cancelled (cancellation is not an
`Exception` and bypasses the handler).  A consumption failure arrives
wrapped as `StreamProcessError("Error processing stream: " + m)`. -/
def attemptFailMsg : AttemptBehavior → Option String
  | .openFail m => some m
  | .stream evs =>
      match firstSpecial evs with
      | some (.raiseE m) => some ("Error processing stream: " ++ m)
      | _ => none

/-- The fragments handed to `callback` while consuming this event
sequence (the loop stops at the first non-chunk event). -/
def callsOfEvents : List StreamEvent → List String
  | [] => []
  | .chunk c :: rest =>
      let f := format_chunk c
      if f = "" then callsOfEvents rest else f :: callsOfEvents rest
  | .cancel :: _ => []
  | .raiseExn _ :: _ => []

/-- The fragments handed to `callback` during one attempt with this
behavior. -/
def attemptCalls : AttemptBehavior → List String
  | .openFail _ => []
  | .stream evs => callsOfEvents evs

/-- How one call to `generate_code_with_explanation` terminates:
the success dictionary (`text` plus the final stats; `completion_time`
is wall-clock and outside the model), a raised `APIError`, a
propagating `asyncio.CancelledError`, or the implicit `None` returned
when the `for` loop body never runs. -/
inductive GenOutcome where
  | success (text : String) (stats : StreamStats)
  | apiError (msg : String)
  | cancelled
  | noneReturned
deriving DecidableEq, Repr

/-- Result of one controller call: its outcome, the number of loop
iterations begun (attempts), the `callback` fragments across all
attempts in order, the `progress_callback` snapshots in order, the
backoff sleeps performed as `(attempt index, delay)` pairs in order, and
the snapshots of the stats record after each of its mutations (starting
with the freshly constructed record). -/
structure GenResult where
  outcome : GenOutcome
  attempts : Nat
  chunkCalls : List String
  progressTrace : List StreamStats
  sleeps : List (Nat × Nat)
  statsTrace : List StreamStats
deriving DecidableEq, Repr

/-- The `for attempt in range(max_retries)` loop, by recursion on the
number of remaining iterations (`attempt = max_retries - remaining`);
the source's `attempt == max_retries - 1` test holds exactly when
`remaining = 1`.  Per iteration: set `status = PROCESSING`; open the
stream (which may itself raise); consume it with `handle_stream`.
On success set `status = COMPLETED` (already set by `handle_stream`)
and return the result dictionary.  A `CancelledError` is not caught by
`except Exception` and propagates.  Any other exception sets
`status = ERROR`; on the last iteration
`APIError(f"Failed after {max_retries} attempts: {str(e)}")` is raised,
otherwise the controller sleeps `min(2 ** attempt, 10)` and retries.
When `remaining = 0` the loop ends and the function returns `None`. -/
def genLoop (behav : Nat → AttemptBehavior) (hasProgress : Bool)
    (max_retries : Nat) : Nat → StreamStats → GenResult
  | 0, _ =>
      { outcome := .noneReturned, attempts := 0, chunkCalls := [],
        progressTrace := [], sleeps := [], statsTrace := [] }
  | r + 1, stats =>
      let attempt := max_retries - (r + 1)
      let stats1 : StreamStats := { stats with status := .PROCESSING }
      match behav attempt with
      | .openFail msg =>
          let statsE : StreamStats := { stats1 with status := .ERROR }
          if r = 0 then
            { outcome := .apiError
                ("Failed after " ++ toString max_retries ++ " attempts: " ++ msg),
              attempts := 1, chunkCalls := [], progressTrace := [],
              sleeps := [], statsTrace := [stats1, statsE] }
          else
            let rest := genLoop behav hasProgress max_retries r statsE
            { rest with
                attempts := rest.attempts + 1,
                sleeps := (attempt, min (2 ^ attempt) 10) :: rest.sleeps,
                statsTrace := stats1 :: statsE :: rest.statsTrace }
      | .stream evs =>
          let c := consumeLoop hasProgress stats1 evs
          match c.outcome with
          | .ok text =>
              let statsC : StreamStats := { c.stats with status := .COMPLETED }
              { outcome := .success text statsC, attempts := 1,
                chunkCalls := c.chunkCalls, progressTrace := c.progressTrace,
                sleeps := [], statsTrace := stats1 :: c.statsTrace ++ [statsC] }
          | .cancelled =>
              { outcome := .cancelled, attempts := 1,
                chunkCalls := c.chunkCalls, progressTrace := c.progressTrace,
                sleeps := [], statsTrace := stats1 :: c.statsTrace }
          | .streamProcessError msg =>
              let statsE : StreamStats := { c.stats with status := .ERROR }
              if r = 0 then
                { outcome := .apiError
                    ("Failed after " ++ toString max_retries ++ " attempts: " ++ msg),
                  attempts := 1, chunkCalls := c.chunkCalls,
                  progressTrace := c.progressTrace, sleeps := [],
                  statsTrace := stats1 :: c.statsTrace ++ [statsE] }
              else
                let rest := genLoop behav hasProgress max_retries r statsE
                { outcome := rest.outcome,
                  attempts := rest.attempts + 1,
                  chunkCalls := c.chunkCalls ++ rest.chunkCalls,
                  progressTrace := c.progressTrace ++ rest.progressTrace,
                  sleeps := (attempt, min (2 ^ attempt) 10) :: rest.sleeps,
                  statsTrace := stats1 :: c.statsTrace ++ statsE :: rest.statsTrace }

/-- `generate_code_with_explanation(prompt, callback, max_retries,
progress_callback)`.  The prompt only parameterizes the request sent to
the collaborator, which `behav` abstracts; `t` is the clock value read
into `start_time`.  A fresh `StreamStats` is constructed once, before
the first attempt.  In Python, `range(m)` is empty for every
non-positive `m`, so `max_retries = 0` also covers negative values. -/
def generate_code_with_explanation (behav : Nat → AttemptBehavior)
    (hasProgress : Bool) (max_retries : Nat) (t : Nat) : GenResult :=
  let stats0 := freshStats t
  let r := genLoop behav hasProgress max_retries max_retries stats0
  { r with statsTrace := stats0 :: r.statsTrace }

/-!
Two overlapping sessions (for the concurrency claim).  `self.stats` is an
attribute of the generator object, so the per-call stats record lives in
a heap cell reachable through the generator: a call first rebinds
`self.stats` to a freshly allocated record and then mutates the record
currently reachable through `self.stats`.  Under asyncio, a session runs
synchronously from its start until the `await asyncio.sleep(0.01)` that
follows the (fully synchronous) `for chunk in stream` loop; the rest of
the call (`status = COMPLETED` twice, then building the result
dictionary, whose `"stats"` entry is a reference to the current
`self.stats`) is a second synchronous segment.  Overlapping sessions
interleave these segments.
-/

/-- Shared state: the allocated `StreamStats` records (indexed by
allocation order) and, per generator object, its `self.stats` attribute
(`none` before the first assignment, as in `__init__`). -/
structure World where
  heap : List StreamStats
  attrs : List (Option Nat)
deriving DecidableEq, Repr

def heapGet (w : World) (i : Nat) : StreamStats := w.heap.getD i (freshStats 0)

/-- Mutate the record currently reachable through generator `g`'s
`self.stats` (always assigned before any of these writes in a run that
reaches them; an unassigned attribute would be a crash in Python and is
a no-op here). -/
def writeSelfStats (w : World) (g : Nat) (f : StreamStats → StreamStats) : World :=
  match w.attrs.getD g none with
  | some i => { w with heap := List.modify f i w.heap }
  | none => w

/-- The counter updates of the synchronous consumption loop, applied to
the record reachable through `self.stats` (here: all chunks format
successfully and the stream completes). -/
def consumeCounters (cs : List RawChunk) (s : StreamStats) : StreamStats :=
  cs.foldl (fun acc c =>
    let f := format_chunk c
    if f = "" then acc
    else { acc with chunks_processed := acc.chunks_processed + 1,
                    total_tokens := acc.total_tokens + pyWordCount f }) s

/-- The local `full_response` accumulator of the loop. -/
def localTextOf (cs : List RawChunk) : String :=
  concatAll ((cs.map format_chunk).filter fun f => decide (f ≠ ""))

/-- First synchronous segment of a single-attempt successful session on
generator `g`: allocate a fresh stats record, rebind `self.stats` to it,
set `status = PROCESSING`, run the consumption loop, then suspend at
`await asyncio.sleep(0.01)`.  Returns the local accumulated text. -/
def seg1 (g : Nat) (cs : List RawChunk) (w : World) : World × String :=
  let i := w.heap.length
  let w1 : World := { heap := w.heap ++ [freshStats 0], attrs := w.attrs.set g (some i) }
  let w2 := writeSelfStats w1 g fun s => { s with status := .PROCESSING }
  let w3 := writeSelfStats w2 g (consumeCounters cs)
  (w3, localTextOf cs)

/-- Second synchronous segment: after the suspension, set
`status = COMPLETED` (in `handle_stream` and again in the controller) on
the record the attribute now designates, and return the result
dictionary — whose stats entry is a reference to the current
`self.stats`. -/
def seg2 (g : Nat) (text : String) (w : World) : World × (String × Nat) :=
  let w1 := writeSelfStats w g fun s => { s with status := .COMPLETED }
  let w2 := writeSelfStats w1 g fun s => { s with status := .COMPLETED }
  let ref := (w2.attrs.getD g none).getD 0
  (w2, (text, ref))

/-- One session as a schedulable task: its generator object, its chunk
list, which segment runs next, the local text, and the returned
dictionary once finished. -/
structure SessionTask where
  gen : Nat
  cs : List RawChunk
  phase : Nat
  text : String
  ret : Option (String × Nat)
deriving DecidableEq, Repr

def mkTask (g : Nat) (cs : List RawChunk) : SessionTask :=
  { gen := g, cs := cs, phase := 0, text := "", ret := none }

/-- Run the task's next pending segment (a finished task is left
unchanged). -/
def stepTask (w : World) (tk : SessionTask) : World × SessionTask :=
  match tk.phase with
  | 0 =>
      let p := seg1 tk.gen tk.cs w
      (p.1, { tk with phase := 1, text := p.2 })
  | 1 =>
      let p := seg2 tk.gen tk.text w
      (p.1, { tk with phase := 2, ret := some p.2 })
  | _ => (w, tk)

/-- Cooperative interleaving of two sessions: each `true` runs the next
segment of session `a`, each `false` the next segment of session `b`. -/
def runSched : List Bool → World → SessionTask → SessionTask →
    World × SessionTask × SessionTask
  | [], w, a, b => (w, a, b)
  | true :: s, w, a, b =>
      let p := stepTask w a
      runSched s p.1 p.2 b
  | false :: s, w, a, b =>
      let p := stepTask w b
      runSched s p.1 a p.2

/-- The stats a finished session observes through the reference in its
result dictionary, once everything has settled. -/
def observedStats (w : World) (tk : SessionTask) : Option StreamStats :=
  tk.ret.map fun r => heapGet w r.2

/-- The text in the session's result dictionary. -/
def returnedText (tk : SessionTask) : Option String := tk.ret.map Prod.fst

/-- The complete interleavings of two two-segment sessions. -/
def allSchedules : List (List Bool) :=
  [[true, true, false, false], [true, false, true, false],
   [true, false, false, true], [false, true, true, false],
   [false, true, false, true], [false, false, true, true]]

/-- The non-empty fragments extracted from a chunk list, in stream
order. -/
def fragsOf (cs : List RawChunk) : List String :=
  (cs.map format_chunk).filter fun f => decide (f ≠ "")

/-- Characterization of the consumption loop on an error-free,
uncancelled chunk sequence: it returns the concatenation of the
non-empty fragments, hands exactly those fragments to `callback`, adds
their count and word counts to the counters, ends `COMPLETED`, and (when
supplied) calls `progress_callback` once per raw chunk plus once at the
end, the last call observing the final stats. -/
theorem consume_chunks_spec (hp : Bool) :
    ∀ (cs : List RawChunk) (s : StreamStats),
    (consumeLoop hp s (cs.map StreamEvent.chunk)).outcome
        = .ok (concatAll (fragsOf cs)) ∧
    (consumeLoop hp s (cs.map StreamEvent.chunk)).chunkCalls = fragsOf cs ∧
    (consumeLoop hp s (cs.map StreamEvent.chunk)).stats.chunks_processed
        = s.chunks_processed + (fragsOf cs).length ∧
    (consumeLoop hp s (cs.map StreamEvent.chunk)).stats.total_tokens
        = s.total_tokens + ((fragsOf cs).map pyWordCount).sum ∧
    (consumeLoop hp s (cs.map StreamEvent.chunk)).stats.status = .COMPLETED ∧
    (consumeLoop hp s (cs.map StreamEvent.chunk)).stats.start_time = s.start_time ∧
    (consumeLoop hp s (cs.map StreamEvent.chunk)).progressTrace.length
        = (if hp then cs.length + 1 else 0) ∧
    (consumeLoop hp s (cs.map StreamEvent.chunk)).progressTrace.getLast?
        = (if hp then some (consumeLoop hp s (cs.map StreamEvent.chunk)).stats
           else none) := by
  intro cs
  induction cs with
  | nil =>
      intro s
      cases hp <;> simp [consumeLoop, fragsOf, concatAll]
  | cons c rest ih =>
      intro s
      by_cases hf : format_chunk c = ""
      · obtain ⟨h1, h2, h3, h4, h5, h6, h7, h8⟩ := ih s
        have hred : consumeLoop hp s ((c :: rest).map StreamEvent.chunk)
            = { consumeLoop hp s (rest.map StreamEvent.chunk) with
                  progressTrace := (if hp then [s] else [])
                    ++ (consumeLoop hp s (rest.map StreamEvent.chunk)).progressTrace } := by
          simp [consumeLoop, hf]
        have hfrag : fragsOf (c :: rest) = fragsOf rest := by
          simp [fragsOf, hf]
        have hne : hp = true →
            (consumeLoop hp s (rest.map StreamEvent.chunk)).progressTrace ≠ [] := by
          intro hhp hnil
          rw [hnil] at h7
          simp [hhp] at h7
        rw [hred, hfrag]
        refine ⟨h1, h2, h3, h4, h5, h6, ?_, ?_⟩
        · cases hp
          · simpa using h7
          · simp only [List.length_append, List.length_cons, if_true]
            rw [h7]
            simp
            omega
        · cases hp
          · simpa using h8
          · simp only [if_true]
            rw [List.getLast?_append_of_ne_nil _ (hne rfl)]
            simpa using h8
      · obtain ⟨h1, h2, h3, h4, h5, h6, h7, h8⟩ :=
          ih { s with chunks_processed := s.chunks_processed + 1, total_tokens := s.total_tokens + pyWordCount (format_chunk c) }
        set s1 : StreamStats := { s with chunks_processed := s.chunks_processed + 1, total_tokens := s.total_tokens + pyWordCount (format_chunk c) } with hs1
        have hred : consumeLoop hp s ((c :: rest).map StreamEvent.chunk)
            = { outcome := match (consumeLoop hp s1 (rest.map StreamEvent.chunk)).outcome with
                           | .ok t => .ok (format_chunk c ++ t)
                           | o => o,
                stats := (consumeLoop hp s1 (rest.map StreamEvent.chunk)).stats,
                chunkCalls := format_chunk c
                  :: (consumeLoop hp s1 (rest.map StreamEvent.chunk)).chunkCalls,
                progressTrace := (if hp then [s1] else [])
                  ++ (consumeLoop hp s1 (rest.map StreamEvent.chunk)).progressTrace,
                statsTrace := s1
                  :: (consumeLoop hp s1 (rest.map StreamEvent.chunk)).statsTrace } := by
          simp [consumeLoop, hf, hs1]
        have hfrag : fragsOf (c :: rest) = format_chunk c :: fragsOf rest := by
          simp [fragsOf, hf]
        have hne : hp = true →
            (consumeLoop hp s1 (rest.map StreamEvent.chunk)).progressTrace ≠ [] := by
          intro hhp hnil
          rw [hnil] at h7
          simp [hhp] at h7
        rw [hred, hfrag]
        refine ⟨?_, ?_, ?_, ?_, h5, ?_, ?_, ?_⟩
        · rw [h1]
          simp [concatAll]
        · rw [h2]
        · rw [h3]
          simp only [hs1, List.length_cons]
          omega
        · rw [h4]
          simp only [hs1, List.map_cons, List.sum_cons]
          omega
        · rw [h6]
        · cases hp
          · simpa using h7
          · simp only [List.length_append, List.length_cons, if_true]
            rw [h7]
            simp
            omega
        · cases hp
          · simpa using h8
          · simp only [if_true]
            rw [List.getLast?_append_of_ne_nil _ (hne rfl)]
            simpa using h8

/-- An exception raised while traversing the sequence (after any prefix
of chunk events) is re-raised as
`StreamProcessError("Error processing stream: " + m)`. -/
theorem consume_error (hp : Bool) (m : String) (rest : List StreamEvent) :
    ∀ (pre : List RawChunk) (s : StreamStats),
    (consumeLoop hp s
        (pre.map StreamEvent.chunk ++ StreamEvent.raiseExn m :: rest)).outcome
      = .streamProcessError ("Error processing stream: " ++ m) := by
  intro pre
  induction pre with
  | nil => intro s; simp [consumeLoop]
  | cons c cs ih =>
      intro s
      by_cases hf : format_chunk c = "" <;> simp [consumeLoop, hf, ih]

/-- The fragments handed to `callback` depend only on the event
sequence, not on the incoming stats or the progress flag. -/
theorem consume_calls (hp : Bool) :
    ∀ (evs : List StreamEvent) (s : StreamStats),
    (consumeLoop hp s evs).chunkCalls = callsOfEvents evs := by
  intro evs
  induction evs with
  | nil => intro s; simp [consumeLoop, callsOfEvents]
  | cons e rest ih =>
      intro s
      cases e with
      | chunk c =>
          by_cases hf : format_chunk c = "" <;>
            simp [consumeLoop, callsOfEvents, hf, ih]
      | cancel => simp [consumeLoop, callsOfEvents]
      | raiseExn m => simp [consumeLoop, callsOfEvents]

/-- Consuming up to a cancellation event hands `callback` exactly the
non-empty fragments of the chunks before the cancellation point. -/
theorem callsOfEvents_append_cancel (rest : List StreamEvent) :
    ∀ (pre : List RawChunk),
    callsOfEvents (pre.map StreamEvent.chunk ++ StreamEvent.cancel :: rest)
      = fragsOf pre := by
  intro pre
  induction pre with
  | nil => simp [callsOfEvents, fragsOf]
  | cons c cs ih =>
      by_cases hf : format_chunk c = "" <;>
        simp [callsOfEvents, fragsOf, hf, ih]

/-- A cancellation observed after any prefix of chunk events makes
`handle_stream` re-raise the cancellation. -/
theorem consume_cancel (hp : Bool) (rest : List StreamEvent) :
    ∀ (pre : List RawChunk) (s : StreamStats),
    (consumeLoop hp s
        (pre.map StreamEvent.chunk ++ StreamEvent.cancel :: rest)).outcome
      = .cancelled := by
  intro pre
  induction pre with
  | nil => intro s; simp [consumeLoop]
  | cons c cs ih =>
      intro s
      by_cases hf : format_chunk c = "" <;> simp [consumeLoop, hf, ih]

/-- The outcome of `handle_stream` is classified by the first non-chunk
event of the sequence: none means normal completion, a cancellation
event means a re-raised cancellation, an exception event means a
`StreamProcessError` wrapping its message. -/
theorem consume_outcome_cases (hp : Bool) :
    ∀ (evs : List StreamEvent) (s : StreamStats),
    (firstSpecial evs = none ∧ ∃ t, (consumeLoop hp s evs).outcome = .ok t) ∨
    (firstSpecial evs = some .cancelE ∧
      (consumeLoop hp s evs).outcome = .cancelled) ∨
    (∃ m, firstSpecial evs = some (.raiseE m) ∧
      (consumeLoop hp s evs).outcome
        = .streamProcessError ("Error processing stream: " ++ m)) := by
  intro evs
  induction evs with
  | nil =>
      intro s
      exact Or.inl ⟨rfl, "", by simp [consumeLoop]⟩
  | cons e rest ih =>
      intro s
      cases e with
      | cancel =>
          exact Or.inr (Or.inl ⟨rfl, by simp [consumeLoop]⟩)
      | raiseExn m =>
          exact Or.inr (Or.inr ⟨m, rfl, by simp [consumeLoop]⟩)
      | chunk c =>
          by_cases hf : format_chunk c = ""
          · rcases ih s with ⟨h0, t, ht⟩ | ⟨h0, ht⟩ | ⟨m, h0, ht⟩
            · exact Or.inl ⟨by simpa [firstSpecial] using h0, t,
                by simp [consumeLoop, hf, ht]⟩
            · exact Or.inr (Or.inl ⟨by simpa [firstSpecial] using h0,
                by simp [consumeLoop, hf, ht]⟩)
            · exact Or.inr (Or.inr ⟨m, by simpa [firstSpecial] using h0,
                by simp [consumeLoop, hf, ht]⟩)
          · rcases ih { s with chunks_processed := s.chunks_processed + 1, total_tokens := s.total_tokens + pyWordCount (format_chunk c) } with
              ⟨h0, t, ht⟩ | ⟨h0, ht⟩ | ⟨m, h0, ht⟩
            · exact Or.inl ⟨by simpa [firstSpecial] using h0,
                format_chunk c ++ t, by simp [consumeLoop, hf, ht]⟩
            · exact Or.inr (Or.inl ⟨by simpa [firstSpecial] using h0,
                by simp [consumeLoop, hf, ht]⟩)
            · exact Or.inr (Or.inr ⟨m, by simpa [firstSpecial] using h0,
                by simp [consumeLoop, hf, ht]⟩)

/-- The status assignments the code can perform, as a step relation:
`INITIALIZING → PROCESSING` (attempt start), `PROCESSING → PROCESSING`
(counter updates), `PROCESSING → COMPLETED` (successful drain),
`COMPLETED → COMPLETED` (the controller sets it again on success),
`PROCESSING → ERROR` (failed attempt), and `ERROR → PROCESSING` (the
retry resets the status at the start of the next attempt). -/
def statusStep (a b : StreamStatus) : Prop :=
  (a = .INITIALIZING ∧ b = .PROCESSING) ∨
  (a = .PROCESSING ∧ (b = .PROCESSING ∨ b = .COMPLETED ∨ b = .ERROR)) ∨
  (a = .COMPLETED ∧ b = .COMPLETED) ∨
  (a = .ERROR ∧ b = .PROCESSING)

/-- One allowed evolution step of the stats record: the counters never
decrease and the status follows `statusStep`. -/
def statsStep (a b : StreamStats) : Prop :=
  a.chunks_processed ≤ b.chunks_processed ∧
  a.total_tokens ≤ b.total_tokens ∧
  statusStep a.status b.status

/-- Within one consumption, the stats snapshots form an allowed chain
from the incoming record, the final stats value is the last snapshot,
and the final status is `COMPLETED` on normal return and still
`PROCESSING` when the loop was interrupted. -/
theorem consume_chain (hp : Bool) :
    ∀ (evs : List StreamEvent) (s : StreamStats), s.status = .PROCESSING →
    List.Chain' statsStep (s :: (consumeLoop hp s evs).statsTrace) ∧
    (s :: (consumeLoop hp s evs).statsTrace).getLast?
      = some (consumeLoop hp s evs).stats ∧
    (consumeLoop hp s evs).stats.status
      = (match (consumeLoop hp s evs).outcome with
         | .ok _ => StreamStatus.COMPLETED
         | _ => StreamStatus.PROCESSING) := by
  intro evs
  induction evs with
  | nil =>
      intro s hs
      refine ⟨?_, by simp [consumeLoop], by simp [consumeLoop]⟩
      simp only [consumeLoop]
      refine List.chain'_cons.2 ⟨⟨le_refl _, le_refl _, ?_⟩, List.chain'_singleton _⟩
      rw [hs]
      exact Or.inr (Or.inl ⟨rfl, Or.inr (Or.inl rfl)⟩)
  | cons e rest ih =>
      intro s hs
      cases e with
      | cancel =>
          refine ⟨by simp [consumeLoop], by simp [consumeLoop], ?_⟩
          simp [consumeLoop, hs]
      | raiseExn m =>
          refine ⟨by simp [consumeLoop], by simp [consumeLoop], ?_⟩
          simp [consumeLoop, hs]
      | chunk c =>
          by_cases hf : format_chunk c = ""
          · obtain ⟨h1, h2, h3⟩ := ih s hs
            refine ⟨?_, ?_, ?_⟩ <;> simp only [consumeLoop, hf, if_true, reduceIte]
            · exact h1
            · exact h2
            · exact h3
          · obtain ⟨h1, h2, h3⟩ :=
              ih { s with chunks_processed := s.chunks_processed + 1, total_tokens := s.total_tokens + pyWordCount (format_chunk c) }
                (by simpa using hs)
            refine ⟨?_, ?_, ?_⟩ <;> simp only [consumeLoop, hf, reduceIte]
            · refine List.chain'_cons.2 ⟨⟨?_, ?_, ?_⟩, h1⟩
              · simp
              · simp
              · rw [hs]
                exact Or.inr (Or.inl ⟨rfl, Or.inl rfl⟩)
            · rw [List.getLast?_cons_cons]
              exact h2
            · rcases ho : (consumeLoop hp { s with chunks_processed := s.chunks_processed + 1, total_tokens := s.total_tokens + pyWordCount (format_chunk c) } rest).outcome with t | m | _
              all_goals rw [ho] at h3
              all_goals simp [ho, h3]

/-- Gluing lemma: extending an allowed chain by one step at the end. -/
theorem chain_snoc_of {A : Type} {R : A → A → Prop} {l : List A} {x y : A}
    (h1 : List.Chain' R l) (h2 : l.getLast? = some x) (hxy : R x y) :
    List.Chain' R (l ++ [y]) := by
  refine List.Chain'.append h1 (List.chain'_singleton _) ?_
  intro u hu v hv
  rw [h2] at hu
  simp only [Option.mem_def, Option.some_inj] at hu
  simp only [List.head?_cons, Option.mem_def, Option.some_inj] at hv
  subst hu
  subst hv
  exact hxy

/-- Gluing lemma: joining two allowed chains across one step. -/
theorem chain_append_cons_of {A : Type} {R : A → A → Prop} {l l2 : List A} {x y : A}
    (h1 : List.Chain' R l) (h2 : l.getLast? = some x) (hxy : R x y)
    (h3 : List.Chain' R (y :: l2)) :
    List.Chain' R (l ++ y :: l2) := by
  refine List.Chain'.append h1 h3 ?_
  intro u hu v hv
  rw [h2] at hu
  simp only [Option.mem_def, Option.some_inj] at hu
  simp only [List.head?_cons, Option.mem_def, Option.some_inj] at hv
  subst hu
  subst hv
  exact hxy

/-- Across the whole retry loop, every mutation of the stats record is
an allowed step: counters never decrease (in particular they are not
reset between attempts) and the status follows the attempt state
machine, `ERROR` being left only for the `PROCESSING` of a retried
attempt. -/
theorem genLoop_chain (behav : Nat → AttemptBehavior) (hp : Bool) (N : Nat) :
    ∀ (r : Nat) (s : StreamStats),
    s.status = .INITIALIZING ∨ s.status = .ERROR →
    List.Chain' statsStep (s :: (genLoop behav hp N r s).statsTrace) := by
  intro r
  induction r with
  | zero =>
      intro s _
      simp [genLoop]
  | succ r ih =>
      intro s hs
      have hstep1 : statsStep s { s with status := StreamStatus.PROCESSING } := by
        refine ⟨le_refl _, le_refl _, ?_⟩
        rcases hs with h | h <;> rw [h]
        · exact Or.inl ⟨rfl, rfl⟩
        · exact Or.inr (Or.inr (Or.inr ⟨rfl, rfl⟩))
      cases hb : behav (N - (r + 1)) with
      | openFail msg =>
          have hstep2 : statsStep ({ s with status := StreamStatus.PROCESSING } : StreamStats)
              { { s with status := StreamStatus.PROCESSING } with status := StreamStatus.ERROR } := by
            exact ⟨le_refl _, le_refl _, Or.inr (Or.inl ⟨rfl, Or.inr (Or.inr rfl)⟩)⟩
          by_cases hr : r = 0
          · subst hr
            simp only [genLoop, hb, reduceIte]
            exact List.chain'_cons.2 ⟨hstep1,
              List.chain'_cons.2 ⟨hstep2, List.chain'_singleton _⟩⟩
          · simp only [genLoop, hb, reduceIte, if_neg hr]
            exact List.chain'_cons.2 ⟨hstep1,
              List.chain'_cons.2 ⟨hstep2, ih _ (Or.inr rfl)⟩⟩
      | stream evs =>
          obtain ⟨hc1, hc2, hc3⟩ :=
            consume_chain hp evs { s with status := StreamStatus.PROCESSING } rfl
          rcases ho : (consumeLoop hp { s with status := StreamStatus.PROCESSING } evs).outcome with t | m | _
          · have hst : (consumeLoop hp { s with status := StreamStatus.PROCESSING } evs).stats.status
                = StreamStatus.COMPLETED := by
              rw [hc3, ho]
            simp only [genLoop, hb, ho]
            exact chain_snoc_of (l := s :: { s with status := StreamStatus.PROCESSING }
                :: (consumeLoop hp { s with status := StreamStatus.PROCESSING } evs).statsTrace)
              (x := (consumeLoop hp { s with status := StreamStatus.PROCESSING } evs).stats)
              (List.chain'_cons.2 ⟨hstep1, hc1⟩)
              (by rw [List.getLast?_cons_cons]; exact hc2)
              ⟨le_refl _, le_refl _, by rw [hst]; exact Or.inr (Or.inr (Or.inl ⟨rfl, rfl⟩))⟩
          · have hst : (consumeLoop hp { s with status := StreamStatus.PROCESSING } evs).stats.status
                = StreamStatus.PROCESSING := by
              rw [hc3, ho]
            by_cases hr : r = 0
            · subst hr
              simp only [genLoop, hb, ho, reduceIte]
              exact chain_snoc_of (l := s :: { s with status := StreamStatus.PROCESSING }
                  :: (consumeLoop hp { s with status := StreamStatus.PROCESSING } evs).statsTrace)
                (x := (consumeLoop hp { s with status := StreamStatus.PROCESSING } evs).stats)
                (List.chain'_cons.2 ⟨hstep1, hc1⟩)
                (by rw [List.getLast?_cons_cons]; exact hc2)
                ⟨le_refl _, le_refl _, by rw [hst]; exact Or.inr (Or.inl ⟨rfl, Or.inr (Or.inr rfl)⟩)⟩
            · simp only [genLoop, hb, ho, reduceIte, if_neg hr]
              exact chain_append_cons_of (l := s :: { s with status := StreamStatus.PROCESSING }
                  :: (consumeLoop hp { s with status := StreamStatus.PROCESSING } evs).statsTrace)
                (x := (consumeLoop hp { s with status := StreamStatus.PROCESSING } evs).stats)
                (List.chain'_cons.2 ⟨hstep1, hc1⟩)
                (by rw [List.getLast?_cons_cons]; exact hc2)
                ⟨le_refl _, le_refl _, by rw [hst]; exact Or.inr (Or.inl ⟨rfl, Or.inr (Or.inr rfl)⟩)⟩
                (ih _ (Or.inr rfl))
          · simp only [genLoop, hb, ho]
            exact List.chain'_cons.2 ⟨hstep1, hc1⟩

/-- When every remaining attempt fails with a non-cancellation error,
the loop performs exactly the remaining number of attempts, sleeps
`min(2^a, 10)` after each failed non-final attempt `a`, and ends by
raising `APIError("Failed after {max_retries} attempts: {m}")` with `m`
the message of the final attempt's failure. -/
theorem genLoop_all_fail (behav : Nat → AttemptBehavior) (hp : Bool) (N : Nat) :
    ∀ (r : Nat) (s : StreamStats), 1 ≤ r → r ≤ N →
    (∀ k, N - r ≤ k → k < N → (attemptFailMsg (behav k)).isSome) →
    (genLoop behav hp N r s).attempts = r ∧
    (genLoop behav hp N r s).sleeps
      = (List.range' (N - r) (r - 1)).map (fun a => (a, min (2 ^ a) 10)) ∧
    ∃ m, attemptFailMsg (behav (N - 1)) = some m ∧
      (genLoop behav hp N r s).outcome
        = .apiError ("Failed after " ++ toString N ++ " attempts: " ++ m) := by
  intro r
  induction r with
  | zero => intro s h1 _ _; omega
  | succ r ih =>
      intro s _ hrN hfail
      have hcur : (attemptFailMsg (behav (N - (r + 1)))).isSome := by
        refine hfail _ (le_refl _) ?_
        omega
      by_cases hr : r = 0
      · subst hr
        have hN1 : N - 1 = N - (0 + 1) := by omega
        cases hb : behav (N - (0 + 1)) with
        | openFail msg =>
            refine ⟨by simp [genLoop, hb], by simp [genLoop, hb], msg, ?_, ?_⟩
            · rfl
            · simp [genLoop, hb]
        | stream evs =>
            rcases consume_outcome_cases hp evs { s with status := StreamStatus.PROCESSING } with
              ⟨h0, t, ht⟩ | ⟨h0, ht⟩ | ⟨m, h0, ht⟩
            · rw [hb] at hcur
              simp [attemptFailMsg, h0] at hcur
            · rw [hb] at hcur
              simp [attemptFailMsg, h0] at hcur
            · refine ⟨by simp [genLoop, hb, ht], by simp [genLoop, hb, ht],
                "Error processing stream: " ++ m, ?_, ?_⟩
              · simp [attemptFailMsg, h0]
              · simp [genLoop, hb, ht]
      · have hr1 : 1 ≤ r := by omega
        have hrange : N - r = (N - (r + 1)) + 1 := by omega
        have hshift : ∀ k, N - r ≤ k → k < N → (attemptFailMsg (behav k)).isSome := by
          intro k hk1 hk2
          refine hfail k ?_ hk2
          omega
        cases hb : behav (N - (r + 1)) with
        | openFail msg =>
            obtain ⟨ha, hsl, m, hm, hout⟩ :=
              ih { { s with status := StreamStatus.PROCESSING } with status := StreamStatus.ERROR }
                hr1 (by omega) hshift
            refine ⟨?_, ?_, m, hm, ?_⟩
            · simp only [genLoop, hb, if_neg hr]
              rw [ha]
            · simp only [genLoop, hb, if_neg hr]
              rw [hsl, hrange]
              have : r + 1 - 1 = (r - 1) + 1 := by omega
              rw [this, List.range'_succ]
              simp
            · simp only [genLoop, hb, if_neg hr]
              exact hout
        | stream evs =>
            rcases consume_outcome_cases hp evs { s with status := StreamStatus.PROCESSING } with
              ⟨h0, t, ht⟩ | ⟨h0, ht⟩ | ⟨m0, h0, ht⟩
            · rw [hb] at hcur
              simp [attemptFailMsg, h0] at hcur
            · rw [hb] at hcur
              simp [attemptFailMsg, h0] at hcur
            · obtain ⟨ha, hsl, m, hm, hout⟩ :=
                ih { (consumeLoop hp { s with status := StreamStatus.PROCESSING } evs).stats with status := StreamStatus.ERROR }
                  hr1 (by omega) hshift
              refine ⟨?_, ?_, m, hm, ?_⟩
              · simp only [genLoop, hb, ht, if_neg hr]
                rw [ha]
              · simp only [genLoop, hb, ht, if_neg hr]
                rw [hsl, hrange]
                have : r + 1 - 1 = (r - 1) + 1 := by omega
                rw [this, List.range'_succ]
                simp
              · simp only [genLoop, hb, ht, if_neg hr]
                exact hout

/-- Conversely, the loop raises an `APIError` only when every attempt it
ran failed with a non-cancellation error, i.e. the exhausted-retries path
is the only failure path apart from cancellation. -/
theorem genLoop_apiError_inv (behav : Nat → AttemptBehavior) (hp : Bool) (N : Nat) :
    ∀ (r : Nat) (s : StreamStats) (m : String), r ≤ N →
    (genLoop behav hp N r s).outcome = .apiError m →
    1 ≤ r ∧ ∀ k, N - r ≤ k → k < N → (attemptFailMsg (behav k)).isSome := by
  intro r
  induction r with
  | zero =>
      intro s m _ hout
      simp [genLoop] at hout
  | succ r ih =>
      intro s m hrN hout
      have hsplit : ∀ k, N - (r + 1) ≤ k → k < N →
          k = N - (r + 1) ∨ (N - r ≤ k ∧ k < N) := by
        intro k h1 h2
        omega
      cases hb : behav (N - (r + 1)) with
      | openFail msg =>
          by_cases hr : r = 0
          · subst hr
            refine ⟨le_refl _, ?_⟩
            intro k hk1 hk2
            have : k = N - (0 + 1) := by omega
            rw [this, hb]
            rfl
          · simp only [genLoop, hb, if_neg hr] at hout
            obtain ⟨_, hall⟩ := ih _ m (by omega) hout
            refine ⟨by omega, ?_⟩
            intro k hk1 hk2
            rcases hsplit k hk1 hk2 with h | ⟨h1, h2⟩
            · rw [h, hb]
              rfl
            · exact hall k h1 h2
      | stream evs =>
          rcases consume_outcome_cases hp evs { s with status := StreamStatus.PROCESSING } with
            ⟨h0, t, ht⟩ | ⟨h0, ht⟩ | ⟨m0, h0, ht⟩
          · simp [genLoop, hb, ht] at hout
          · simp [genLoop, hb, ht] at hout
          · have hcurF : (attemptFailMsg (AttemptBehavior.stream evs)).isSome := by
              simp [attemptFailMsg, h0]
            by_cases hr : r = 0
            · subst hr
              refine ⟨le_refl _, ?_⟩
              intro k hk1 hk2
              have : k = N - (0 + 1) := by omega
              rw [this, hb]
              exact hcurF
            · simp only [genLoop, hb, ht, if_neg hr] at hout
              obtain ⟨_, hall⟩ := ih _ m (by omega) hout
              refine ⟨by omega, ?_⟩
              intro k hk1 hk2
              rcases hsplit k hk1 hk2 with h | ⟨h1, h2⟩
              · rw [h, hb]
                exact hcurF
              · exact hall k h1 h2

/-- When the first `kk` attempts fail with non-cancellation errors and
attempt `kk` observes a cancellation after a prefix of chunks, the loop
propagates the cancellation: no success value, exactly `kk + 1` attempts,
backoff sleeps only for the `kk` failed attempts, and the `callback`
fragments are those of the failed attempts followed by the non-empty
fragments extracted before the cancellation point. -/
theorem genLoop_cancel (behav : Nat → AttemptBehavior) (hp : Bool) (N : Nat)
    (pre : List RawChunk) (rest : List StreamEvent) :
    ∀ (kk r : Nat) (s : StreamStats), kk < r → r ≤ N →
    (∀ j, j < kk → (attemptFailMsg (behav (N - r + j))).isSome) →
    behav (N - r + kk) = .stream (pre.map StreamEvent.chunk ++ StreamEvent.cancel :: rest) →
    (genLoop behav hp N r s).outcome = .cancelled ∧
    (genLoop behav hp N r s).attempts = kk + 1 ∧
    (genLoop behav hp N r s).sleeps
      = (List.range' (N - r) kk).map (fun a => (a, min (2 ^ a) 10)) ∧
    (genLoop behav hp N r s).chunkCalls
      = ((List.range' (N - r) kk).map (fun j => attemptCalls (behav j))).flatten
        ++ fragsOf pre := by
  intro kk
  induction kk with
  | zero =>
      intro r s hkr hrN _ hb
      cases r with
      | zero => omega
      | succ r1 =>
          have hb0 : behav (N - (r1 + 1))
              = .stream (pre.map StreamEvent.chunk ++ StreamEvent.cancel :: rest) := by
            simpa using hb
          have hoc := consume_cancel hp rest pre { s with status := StreamStatus.PROCESSING }
          have hcc : (consumeLoop hp { s with status := StreamStatus.PROCESSING }
                (pre.map StreamEvent.chunk ++ StreamEvent.cancel :: rest)).chunkCalls
              = fragsOf pre := by
            rw [consume_calls, callsOfEvents_append_cancel]
          refine ⟨?_, ?_, ?_, ?_⟩ <;> simp [genLoop, hb0, hoc, hcc]
  | succ kk ih =>
      intro r s hkr hrN hfail hb
      cases r with
      | zero => omega
      | succ r1 =>
          have hr1 : ¬ r1 = 0 := by omega
          have hcur : (attemptFailMsg (behav (N - (r1 + 1)))).isSome := by
            have := hfail 0 (by omega)
            simpa using this
          have hrange : N - r1 = (N - (r1 + 1)) + 1 := by omega
          have hfail' : ∀ j, j < kk → (attemptFailMsg (behav (N - r1 + j))).isSome := by
            intro j hj
            have := hfail (j + 1) (by omega)
            rw [hrange]
            have harith : N - (r1 + 1) + (j + 1) = N - (r1 + 1) + 1 + j := by omega
            rw [harith] at this
            exact this
          have hb' : behav (N - r1 + kk)
              = .stream (pre.map StreamEvent.chunk ++ StreamEvent.cancel :: rest) := by
            rw [hrange]
            have harith : N - (r1 + 1) + (kk + 1) = N - (r1 + 1) + 1 + kk := by omega
            rw [harith] at hb
            exact hb
          have hflat : ∀ x : List String, ∀ l : List (List String),
              (x :: l).flatten = x ++ l.flatten := by
            intro x l
            simp
          cases hbc : behav (N - (r1 + 1)) with
          | openFail msg =>
              obtain ⟨ho, ha, hsl, hcalls⟩ :=
                ih (r1) { { s with status := StreamStatus.PROCESSING } with status := StreamStatus.ERROR }
                  (by omega) (by omega) hfail' hb'
              refine ⟨?_, ?_, ?_, ?_⟩ <;>
                simp only [genLoop, hbc, if_neg hr1]
              · exact ho
              · rw [ha]
              · rw [hsl, hrange, List.range'_succ]
                simp
              · rw [hcalls, hrange, List.range'_succ]
                simp only [List.map_cons, hflat, hbc]
                simp [attemptCalls]
          | stream evs =>
              rcases consume_outcome_cases hp evs { s with status := StreamStatus.PROCESSING } with
                ⟨h0, t, ht⟩ | ⟨h0, ht⟩ | ⟨m0, h0, ht⟩
              · rw [hbc] at hcur
                simp [attemptFailMsg, h0] at hcur
              · rw [hbc] at hcur
                simp [attemptFailMsg, h0] at hcur
              · obtain ⟨ho, ha, hsl, hcalls⟩ :=
                  ih (r1) { (consumeLoop hp { s with status := StreamStatus.PROCESSING } evs).stats with status := StreamStatus.ERROR }
                    (by omega) (by omega) hfail' hb'
                have hcc : (consumeLoop hp { s with status := StreamStatus.PROCESSING } evs).chunkCalls
                    = attemptCalls (AttemptBehavior.stream evs) := by
                  rw [consume_calls]
                  rfl
                refine ⟨?_, ?_, ?_, ?_⟩ <;>
                  simp only [genLoop, hbc, ht, if_neg hr1]
                · exact ho
                · rw [ha]
                · rw [hsl, hrange, List.range'_succ]
                  simp
                · rw [hcalls, hcc, hrange, List.range'_succ]
                  simp only [List.map_cons, hflat, hbc]
                  simp

/-- Every backoff sleep ever recorded by the loop is
`min(2^attempt, 10)` for its attempt index. -/
theorem genLoop_sleeps_form (behav : Nat → AttemptBehavior) (hp : Bool) (N : Nat) :
    ∀ (r : Nat) (s : StreamStats) (p : Nat × Nat),
    p ∈ (genLoop behav hp N r s).sleeps → p.2 = min (2 ^ p.1) 10 := by
  intro r
  induction r with
  | zero =>
      intro s p hmem
      simp [genLoop] at hmem
  | succ r ih =>
      intro s p hmem
      cases hb : behav (N - (r + 1)) with
      | openFail msg =>
          by_cases hr : r = 0
          · subst hr
            simp [genLoop, hb] at hmem
          · simp only [genLoop, hb, if_neg hr] at hmem
            rcases List.mem_cons.1 hmem with h | h
            · rw [h]
            · exact ih _ _ h
      | stream evs =>
          rcases consume_outcome_cases hp evs { s with status := StreamStatus.PROCESSING } with
            ⟨h0, t, ht⟩ | ⟨h0, ht⟩ | ⟨m0, h0, ht⟩
          · simp [genLoop, hb, ht] at hmem
          · simp [genLoop, hb, ht] at hmem
          · by_cases hr : r = 0
            · subst hr
              simp [genLoop, hb, ht] at hmem
            · simp only [genLoop, hb, ht, if_neg hr] at hmem
              rcases List.mem_cons.1 hmem with h | h
              · rw [h]
              · exact ih _ _ h

/-- C3: for every input chunk, regardless of its structure (missing
`choices`, empty `choices`, missing `delta`, missing `content`, or
content `None`/empty), `format_chunk` never raises — the catch-all
handler converts every structural-access exception into a normal return
— and every chunk lacking a usable content path yields the empty
string. -/
theorem C3_format_chunk_never_raises :
    ∀ ch : RawChunk,
    format_chunkE ch = Except.ok (format_chunk ch) ∧
    (lacksUsableContent ch = true → format_chunk ch = "") := by
  intro ch
  constructor
  · cases ch <;> simp [format_chunkE, format_chunk, formatAttempt]
  · intro h
    cases ch with
    | content c =>
        cases c with
        | none => rfl
        | some str =>
            simp [lacksUsableContent] at h
            simp [format_chunk, formatAttempt, h]
    | noChoices => rfl
    | emptyChoices => rfl
    | noDelta => rfl
    | noContentAttr => rfl

/-- Witness for C3 at a concrete malformed chunk. -/
theorem C3_witness :
    lacksUsableContent RawChunk.noChoices = true ∧
    format_chunk RawChunk.noChoices = "" :=
  ⟨rfl, (C3_format_chunk_never_raises RawChunk.noChoices).2 rfl⟩

/-- C2: on a chunk sequence consumed to completion without error or
cancellation, starting from a fresh stats record, `handle_stream`
invokes `callback` exactly once per chunk with non-empty extracted text,
in stream order; returns their in-order concatenation; ends with
`chunks_processed` equal to the number of callback invocations and
`total_tokens` equal to the summed whitespace word counts of the
fragments; and ends with status `COMPLETED`. -/
theorem C2_handle_stream_success :
    ∀ (cs : List RawChunk) (hp : Bool) (s : StreamStats),
    s.chunks_processed = 0 → s.total_tokens = 0 →
    (handle_stream hp s (cs.map StreamEvent.chunk)).outcome
      = .ok (concatAll (fragsOf cs)) ∧
    (handle_stream hp s (cs.map StreamEvent.chunk)).chunkCalls = fragsOf cs ∧
    (handle_stream hp s (cs.map StreamEvent.chunk)).stats.chunks_processed
      = (handle_stream hp s (cs.map StreamEvent.chunk)).chunkCalls.length ∧
    (handle_stream hp s (cs.map StreamEvent.chunk)).stats.total_tokens
      = ((fragsOf cs).map pyWordCount).sum ∧
    (handle_stream hp s (cs.map StreamEvent.chunk)).stats.status = .COMPLETED := by
  intro cs hp s h1 h2
  obtain ⟨g1, g2, g3, g4, g5, _, _, _⟩ := consume_chunks_spec hp cs s
  simp only [handle_stream]
  refine ⟨g1, g2, ?_, ?_, g5⟩
  · rw [g3, g2, h1]
    simp
  · rw [g4, h2]
    simp

/-- Witness for C2 on a concrete three-chunk stream (one contentless
chunk in the middle). -/
theorem C2_witness :
    (handle_stream true (freshStats 0)
        ([RawChunk.content (some "ab cd"), RawChunk.noDelta,
          RawChunk.content (some "x")].map StreamEvent.chunk)).outcome
      = ConsumeOutcome.ok "ab cdx" ∧
    (handle_stream true (freshStats 0)
        ([RawChunk.content (some "ab cd"), RawChunk.noDelta,
          RawChunk.content (some "x")].map StreamEvent.chunk)).chunkCalls
      = ["ab cd", "x"] ∧
    (handle_stream true (freshStats 0)
        ([RawChunk.content (some "ab cd"), RawChunk.noDelta,
          RawChunk.content (some "x")].map StreamEvent.chunk)).stats.chunks_processed
      = 2 ∧
    (handle_stream true (freshStats 0)
        ([RawChunk.content (some "ab cd"), RawChunk.noDelta,
          RawChunk.content (some "x")].map StreamEvent.chunk)).stats.total_tokens
      = 3 ∧
    (handle_stream true (freshStats 0)
        ([RawChunk.content (some "ab cd"), RawChunk.noDelta,
          RawChunk.content (some "x")].map StreamEvent.chunk)).stats.status
      = StreamStatus.COMPLETED := by
  obtain ⟨h1, h2, h3, h4, h5⟩ :=
    C2_handle_stream_success
      [RawChunk.content (some "ab cd"), RawChunk.noDelta, RawChunk.content (some "x")]
      true (freshStats 0) rfl rfl
  refine ⟨?_, ?_, ?_, ?_, h5⟩
  · rw [h1]
    rfl
  · rw [h2]
    rfl
  · rw [h3, h2]
    rfl
  · rw [h4]
    decide

/-- C8: on a chunk sequence of length n consumed to completion, a
supplied progress callback is invoked exactly n + 1 times — once per raw
chunk, whether or not it yielded text, plus once after exhaustion — and
its last invocation observes the final stats, whose status is
`COMPLETED`. -/
theorem C8_progress_callback_count :
    ∀ (cs : List RawChunk) (s : StreamStats),
    (handle_stream true s (cs.map StreamEvent.chunk)).progressTrace.length
      = cs.length + 1 ∧
    (handle_stream true s (cs.map StreamEvent.chunk)).progressTrace.getLast?
      = some (handle_stream true s (cs.map StreamEvent.chunk)).stats ∧
    (handle_stream true s (cs.map StreamEvent.chunk)).stats.status = .COMPLETED := by
  intro cs s
  obtain ⟨_, _, _, _, g5, _, g7, g8⟩ := consume_chunks_spec true cs s
  simp only [handle_stream]
  exact ⟨by simpa using g7, by simpa using g8, g5⟩

/-- C5: a non-cancellation exception with message m raised while
traversing the chunk sequence makes `handle_stream` raise
`StreamProcessError("Error processing stream: " + m)`, and the text
accumulated before the failure is not returned. -/
theorem C5_stream_error_wrapped :
    ∀ (hp : Bool) (s : StreamStats) (pre : List RawChunk) (m : String)
      (rest : List StreamEvent),
    (handle_stream hp s
        (pre.map StreamEvent.chunk ++ StreamEvent.raiseExn m :: rest)).outcome
      = .streamProcessError ("Error processing stream: " ++ m) ∧
    ∀ t, (handle_stream hp s
        (pre.map StreamEvent.chunk ++ StreamEvent.raiseExn m :: rest)).outcome
      ≠ .ok t := by
  intro hp s pre m rest
  have h := consume_error hp m rest pre s
  refine ⟨h, ?_⟩
  intro t hcon
  simp only [handle_stream] at hcon
  rw [h] at hcon
  exact ConsumeOutcome.noConfusion hcon

/-- Witness for C5: a one-chunk prefix followed by a transport error. -/
theorem C5_witness :
    (handle_stream false (freshStats 0)
        ([RawChunk.content (some "a")].map StreamEvent.chunk
          ++ StreamEvent.raiseExn "net down" :: [])).outcome
      = ConsumeOutcome.streamProcessError "Error processing stream: net down" := by
  have h := (C5_stream_error_wrapped false (freshStats 0)
    [RawChunk.content (some "a")] "net down" []).1
  rw [h]
  decide

/-- C10: with `max_retries = 0` (Python's `range(m)` is empty for every
non-positive m) the loop body never runs: no attempt is made, no
callback fires, no sleep happens, no error is raised, and the call
returns `None`; only the fresh stats record was created. -/
theorem C10_zero_retries_returns_none :
    ∀ (behav : Nat → AttemptBehavior) (hp : Bool) (t : Nat),
    generate_code_with_explanation behav hp 0 t
      = { outcome := .noneReturned, attempts := 0, chunkCalls := [],
          progressTrace := [], sleeps := [], statsTrace := [freshStats t] } := by
  intro behav hp t
  rfl

/-- C7: the stats record is created once, before the first attempt
(the trace starts at the fresh record), and every one of its mutations
over the whole call is an allowed step: `chunks_processed` and
`total_tokens` never decrease (never reset between retries), and the
status follows INITIALIZING → PROCESSING → COMPLETED or ERROR within an
attempt, leaving ERROR only by the PROCESSING reset of a retried
attempt. -/
theorem C7_stats_monotone_and_status_machine :
    ∀ (behav : Nat → AttemptBehavior) (hp : Bool) (N t : Nat),
    (generate_code_with_explanation behav hp N t).statsTrace.head?
      = some (freshStats t) ∧
    List.Chain' statsStep (generate_code_with_explanation behav hp N t).statsTrace := by
  intro behav hp N t
  constructor
  · simp [generate_code_with_explanation]
  · have h := genLoop_chain behav hp N N (freshStats t) (Or.inl rfl)
    simpa [generate_code_with_explanation] using h

/-- C1: when every attempt fails with a non-cancellation error and
`max_retries = N ≥ 1`, the controller performs exactly N attempts and
raises `APIError("Failed after {N} attempts: {m}")` with m the message
of the N-th attempt's failure; conversely an `APIError` arises only when
every attempt failed that way, so this is the only failure path of the
whole call apart from cancellation. -/
theorem C1_retry_exhaustion :
    ∀ (behav : Nat → AttemptBehavior) (hp : Bool) (N t : Nat), 1 ≤ N →
    (∀ k, k < N → (attemptFailMsg (behav k)).isSome) →
    ((generate_code_with_explanation behav hp N t).attempts = N ∧
     ∃ m, attemptFailMsg (behav (N - 1)) = some m ∧
       (generate_code_with_explanation behav hp N t).outcome
         = .apiError ("Failed after " ++ toString N ++ " attempts: " ++ m)) ∧
    ∀ (behav2 : Nat → AttemptBehavior) (hp2 : Bool) (N2 t2 : Nat) (m2 : String),
      (generate_code_with_explanation behav2 hp2 N2 t2).outcome = .apiError m2 →
      1 ≤ N2 ∧ ∀ k, k < N2 → (attemptFailMsg (behav2 k)).isSome := by
  intro behav hp N t hN hfail
  constructor
  · obtain ⟨ha, _, m, hm, hout⟩ :=
      genLoop_all_fail behav hp N N (freshStats t) hN (le_refl _)
        (by intro k _ h2; exact hfail k h2)
    exact ⟨ha, m, hm, hout⟩
  · intro behav2 hp2 N2 t2 m2 hout
    have hout2 : (genLoop behav2 hp2 N2 N2 (freshStats t2)).outcome = .apiError m2 := hout
    obtain ⟨h1, h2⟩ :=
      genLoop_apiError_inv behav2 hp2 N2 N2 (freshStats t2) m2 (le_refl _) hout2
    refine ⟨h1, ?_⟩
    intro k hk
    exact h2 k (by omega) hk

/-- Witness for C1: a collaborator that always fails at the open-stream
step, with two allowed attempts. -/
theorem C1_witness :
    (generate_code_with_explanation (fun _ => AttemptBehavior.openFail "boom")
        false 2 0).attempts = 2 ∧
    (generate_code_with_explanation (fun _ => AttemptBehavior.openFail "boom")
        false 2 0).outcome
      = GenOutcome.apiError "Failed after 2 attempts: boom" := by
  obtain ⟨⟨ha, m, hm, hout⟩, _⟩ :=
    C1_retry_exhaustion (fun _ => AttemptBehavior.openFail "boom") false 2 0
      (by omega) (by intro k _; rfl)
  have hmm : m = "boom" := by
    simp [attemptFailMsg] at hm
    exact hm.symm
  subst hmm
  refine ⟨ha, ?_⟩
  rw [hout]
  rfl

/-- C6: every backoff delay the controller requests after the failed
attempt with 0-based index a equals `min(2^a, 10)` — equivalently
`min(2^(k-1), 10)` before attempt k = a + 1 — and so never exceeds 10;
moreover with N always-failing attempts the recorded delays are exactly
those for attempts 0 .. N-2. -/
theorem C6_backoff_delays :
    ∀ (behav : Nat → AttemptBehavior) (hp : Bool) (N t : Nat),
    (∀ p ∈ (generate_code_with_explanation behav hp N t).sleeps,
       p.2 = min (2 ^ p.1) 10 ∧ p.2 ≤ 10) ∧
    (1 ≤ N → (∀ k, k < N → (attemptFailMsg (behav k)).isSome) →
      (generate_code_with_explanation behav hp N t).sleeps
        = (List.range (N - 1)).map (fun a => (a, min (2 ^ a) 10))) := by
  intro behav hp N t
  constructor
  · intro p hmem
    have h := genLoop_sleeps_form behav hp N N (freshStats t) p hmem
    exact ⟨h, by rw [h]; exact min_le_right _ _⟩
  · intro hN hfail
    obtain ⟨_, hsl, _⟩ :=
      genLoop_all_fail behav hp N N (freshStats t) hN (le_refl _)
        (by intro k _ h2; exact hfail k h2)
    have h0 : N - N = 0 := Nat.sub_self N
    rw [h0] at hsl
    rw [← List.range_eq_range'] at hsl
    exact hsl

/-- Witness for C6: three always-failing attempts record delays
`min(1,10) = 1` and `min(2,10) = 2` for attempts 0 and 1. -/
theorem C6_witness :
    (generate_code_with_explanation (fun _ => AttemptBehavior.openFail "x")
        false 3 0).sleeps = [(0, 1), (1, 2)] := by
  have h :=
    (C6_backoff_delays (fun _ => AttemptBehavior.openFail "x") false 3 0).2
      (by omega) (by intro k _; rfl)
  rw [h]
  rfl

/-- C4 as stated is false: it asserts the chunk callback is invoked
exactly i times when cancellation is signaled after chunk i, but the
callback only fires for chunks with non-empty extracted text.  Here
chunk 1 of 2 is a contentless chunk (as the leading role-delta chunk of
a real stream is), cancellation arrives after it (i = 1 < n = 2), the
call is cancelled — yet the callback fired 0 times, not 1. -/
theorem C4_counterexample :
    (generate_code_with_explanation
        (fun _ => AttemptBehavior.stream
          [StreamEvent.chunk RawChunk.noContentAttr, StreamEvent.cancel,
           StreamEvent.chunk (RawChunk.content (some "z"))]) false 1 0).outcome
      = GenOutcome.cancelled ∧
    (generate_code_with_explanation
        (fun _ => AttemptBehavior.stream
          [StreamEvent.chunk RawChunk.noContentAttr, StreamEvent.cancel,
           StreamEvent.chunk (RawChunk.content (some "z"))]) false 1 0).chunkCalls.length
      = 0 ∧
    ¬ (generate_code_with_explanation
        (fun _ => AttemptBehavior.stream
          [StreamEvent.chunk RawChunk.noContentAttr, StreamEvent.cancel,
           StreamEvent.chunk (RawChunk.content (some "z"))]) false 1 0).chunkCalls.length
      = 1 := by
  refine ⟨?_, ?_, ?_⟩ <;> decide

/-- C4 (amended): when cancellation is signaled during attempt k (after
any prefix of chunks, the earlier attempts having failed), the call
never returns a success dictionary: the chunk callback is invoked
exactly once per chunk before the cancellation point whose extracted
text is non-empty, the cancellation propagates out of
`generate_code_with_explanation` as a cancellation (never reclassified
as `StreamProcessError` or `APIError`), and no backoff sleep or further
attempt occurs after the cancellation. -/
theorem C4_amended_cancellation :
    ∀ (behav : Nat → AttemptBehavior) (hp : Bool) (N t k : Nat)
      (pre : List RawChunk) (rest : List StreamEvent),
    k < N →
    (∀ j, j < k → (attemptFailMsg (behav j)).isSome) →
    behav k = .stream (pre.map StreamEvent.chunk ++ StreamEvent.cancel :: rest) →
    (generate_code_with_explanation behav hp N t).outcome = .cancelled ∧
    (generate_code_with_explanation behav hp N t).attempts = k + 1 ∧
    (generate_code_with_explanation behav hp N t).sleeps
      = (List.range k).map (fun a => (a, min (2 ^ a) 10)) ∧
    (generate_code_with_explanation behav hp N t).chunkCalls
      = ((List.range k).map (fun j => attemptCalls (behav j))).flatten
        ++ fragsOf pre := by
  intro behav hp N t k pre rest hkN hfail hbk
  have h0 : N - N = 0 := Nat.sub_self N
  obtain ⟨h1, h2, h3, h4⟩ :=
    genLoop_cancel behav hp N pre rest k N (freshStats t) hkN (le_refl _)
      (by intro j hj; rw [h0]; simpa using hfail j hj)
      (by rw [h0]; simpa using hbk)
  rw [h0, ← List.range_eq_range'] at h3 h4
  exact ⟨h1, h2, h3, h4⟩

/-- Witness for C4 (amended): attempt 0 fails opening the stream,
attempt 1 delivers one content chunk and then a cancellation; the call
is cancelled after 2 attempts, one backoff sleep, and one callback
invocation. -/
theorem C4_amended_witness :
    (generate_code_with_explanation
        (fun j => if j = 0 then AttemptBehavior.openFail "b"
                  else AttemptBehavior.stream
                    [StreamEvent.chunk (RawChunk.content (some "x")),
                     StreamEvent.cancel]) false 3 0).outcome
      = GenOutcome.cancelled ∧
    (generate_code_with_explanation
        (fun j => if j = 0 then AttemptBehavior.openFail "b"
                  else AttemptBehavior.stream
                    [StreamEvent.chunk (RawChunk.content (some "x")),
                     StreamEvent.cancel]) false 3 0).attempts = 2 ∧
    (generate_code_with_explanation
        (fun j => if j = 0 then AttemptBehavior.openFail "b"
                  else AttemptBehavior.stream
                    [StreamEvent.chunk (RawChunk.content (some "x")),
                     StreamEvent.cancel]) false 3 0).sleeps = [(0, 1)] ∧
    (generate_code_with_explanation
        (fun j => if j = 0 then AttemptBehavior.openFail "b"
                  else AttemptBehavior.stream
                    [StreamEvent.chunk (RawChunk.content (some "x")),
                     StreamEvent.cancel]) false 3 0).chunkCalls = ["x"] := by
  obtain ⟨h1, h2, h3, h4⟩ :=
    C4_amended_cancellation
      (fun j => if j = 0 then AttemptBehavior.openFail "b"
                else AttemptBehavior.stream
                  [StreamEvent.chunk (RawChunk.content (some "x")),
                   StreamEvent.cancel]) false 3 0 1
      [RawChunk.content (some "x")] [] (by omega)
      (by
        intro j hj
        have hj0 : j = 0 := by omega
        subst hj0
        rfl)
      rfl
  refine ⟨h1, h2, ?_, ?_⟩
  · rw [h3]
    rfl
  · rw [h4]
    rfl

/-- C9 as stated is false: each call does construct a fresh StreamStats,
but stores it in the shared `self.stats` attribute, so two overlapping
calls on the same generator instance interfere.  Session A (one chunk,
1 token) overlapping session B (one chunk, 3 tokens) under the real
asyncio order — A runs to its post-stream suspension, B runs to its
suspension, A finishes, B finishes — returns B's stats object to A:
A observes `total_tokens = 3`, while the same call run alone observes
`total_tokens = 1`. -/
theorem C9_counterexample :
    observedStats
        (runSched [true, false, true, false] { heap := [], attrs := [none] }
          (mkTask 0 [RawChunk.content (some "x")])
          (mkTask 0 [RawChunk.content (some "y y y")])).1
        (runSched [true, false, true, false] { heap := [], attrs := [none] }
          (mkTask 0 [RawChunk.content (some "x")])
          (mkTask 0 [RawChunk.content (some "y y y")])).2.1
      = some { start_time := 0, chunks_processed := 1, total_tokens := 3,
               status := StreamStatus.COMPLETED } ∧
    observedStats
        (runSched [true, true] { heap := [], attrs := [none] }
          (mkTask 0 [RawChunk.content (some "x")])
          (mkTask 0 [RawChunk.content (some "y y y")])).1
        (runSched [true, true] { heap := [], attrs := [none] }
          (mkTask 0 [RawChunk.content (some "x")])
          (mkTask 0 [RawChunk.content (some "y y y")])).2.1
      = some { start_time := 0, chunks_processed := 1, total_tokens := 1,
               status := StreamStatus.COMPLETED } ∧
    observedStats
        (runSched [true, false, true, false] { heap := [], attrs := [none] }
          (mkTask 0 [RawChunk.content (some "x")])
          (mkTask 0 [RawChunk.content (some "y y y")])).1
        (runSched [true, false, true, false] { heap := [], attrs := [none] }
          (mkTask 0 [RawChunk.content (some "x")])
          (mkTask 0 [RawChunk.content (some "y y y")])).2.1
      ≠ observedStats
        (runSched [true, true] { heap := [], attrs := [none] }
          (mkTask 0 [RawChunk.content (some "x")])
          (mkTask 0 [RawChunk.content (some "y y y")])).1
        (runSched [true, true] { heap := [], attrs := [none] }
          (mkTask 0 [RawChunk.content (some "x")])
          (mkTask 0 [RawChunk.content (some "y y y")])).2.1 := by
  refine ⟨?_, ?_, ?_⟩ <;> decide

/-- C9 (amended): each call constructs a fresh StreamStats but stores it
in the generator's `self.stats` attribute, so overlapping calls on the
same instance can observe and return each other's stats; overlapping
calls on two distinct generator instances are independent — under every
interleaving of their segments, each call returns the same text and
observes the same stats as when run alone, with no cross-session
interference in token counts. -/
theorem C9_amended_distinct_generators :
    ∀ (csA csB : List RawChunk) (sched : List Bool), sched ∈ allSchedules →
    (observedStats
        (runSched sched { heap := [], attrs := [none, none] }
          (mkTask 0 csA) (mkTask 1 csB)).1
        (runSched sched { heap := [], attrs := [none, none] }
          (mkTask 0 csA) (mkTask 1 csB)).2.1
      = observedStats
          (runSched [true, true] { heap := [], attrs := [none, none] }
            (mkTask 0 csA) (mkTask 1 csB)).1
          (runSched [true, true] { heap := [], attrs := [none, none] }
            (mkTask 0 csA) (mkTask 1 csB)).2.1) ∧
    (observedStats
        (runSched sched { heap := [], attrs := [none, none] }
          (mkTask 0 csA) (mkTask 1 csB)).1
        (runSched sched { heap := [], attrs := [none, none] }
          (mkTask 0 csA) (mkTask 1 csB)).2.2
      = observedStats
          (runSched [false, false] { heap := [], attrs := [none, none] }
            (mkTask 0 csA) (mkTask 1 csB)).1
          (runSched [false, false] { heap := [], attrs := [none, none] }
            (mkTask 0 csA) (mkTask 1 csB)).2.2) ∧
    (returnedText (runSched sched { heap := [], attrs := [none, none] }
          (mkTask 0 csA) (mkTask 1 csB)).2.1
      = returnedText (runSched [true, true] { heap := [], attrs := [none, none] }
          (mkTask 0 csA) (mkTask 1 csB)).2.1) ∧
    (returnedText (runSched sched { heap := [], attrs := [none, none] }
          (mkTask 0 csA) (mkTask 1 csB)).2.2
      = returnedText (runSched [false, false] { heap := [], attrs := [none, none] }
          (mkTask 0 csA) (mkTask 1 csB)).2.2) := by
  intro csA csB sched hs
  simp only [allSchedules, List.mem_cons, List.mem_singleton,
    List.not_mem_nil, or_false] at hs
  rcases hs with rfl | rfl | rfl | rfl | rfl | rfl <;>
    simp [runSched, stepTask, mkTask, seg1, seg2, writeSelfStats, heapGet,
      observedStats, returnedText, List.modify, List.getD]

/-- Witness for C9 (amended): the same two sessions as the
counterexample, but on distinct generator instances and interleaved in
the same order, leave session A observing its own 1-token stats. -/
theorem C9_amended_witness :
    observedStats
        (runSched [true, false, true, false] { heap := [], attrs := [none, none] }
          (mkTask 0 [RawChunk.content (some "x")])
          (mkTask 1 [RawChunk.content (some "y y y")])).1
        (runSched [true, false, true, false] { heap := [], attrs := [none, none] }
          (mkTask 0 [RawChunk.content (some "x")])
          (mkTask 1 [RawChunk.content (some "y y y")])).2.1
      = some { start_time := 0, chunks_processed := 1, total_tokens := 1,
               status := StreamStatus.COMPLETED } := by
  have h :=
    (C9_amended_distinct_generators [RawChunk.content (some "x")]
      [RawChunk.content (some "y y y")] [true, false, true, false]
      (by simp [allSchedules])).1
  rw [h]
  decide

end StreamCodeGen
